import Mathlib

/-!
Verification of the tpuf-go client core: status classification, envelope
decoding, the retry/backoff executor, the filter serializer and the gzip
transport plumbing, shallowly embedded from the Go source (client.go,
filter.go).  Go machine integers that matter here (HTTP status codes,
retry counts) are modelled as `Int` with the explicit `% 2^64` reduction
where the source converts to `uint64`.
-/

namespace Tpuf

/-- HTTP status constant `http.StatusOK` (200). -/
def StatusOK : Int := 200

/-- HTTP status constant `http.StatusRequestTimeout` (408). -/
def StatusRequestTimeout : Int := 408

/-- HTTP status constant `http.StatusTooManyRequests` (429). -/
def StatusTooManyRequests : Int := 429

/-- HTTP status constant `http.StatusAccepted` (202). -/
def StatusAccepted : Int := 202

/-- Embedded from client.go `isRetriable`: a status code is retriable iff it
is at least 500 or is exactly 408, 429 or 202. -/
def isRetriable (statusCode : Int) : Bool :=
  decide (statusCode ≥ 500) ||
    decide (statusCode = StatusRequestTimeout) ||
    decide (statusCode = StatusTooManyRequests) ||
    decide (statusCode = StatusAccepted)

/-- Embedded from client.go `ApiError`: the decoded envelope plus the HTTP
status code (the `json:"-"` field). -/
structure ApiError where
  status : String
  err : String
  httpStatus : Int
deriving DecidableEq, Repr

/-- Embedded from client.go `ApiStatusOK`. -/
def ApiStatusOK : String := "OK"

/-- Embedded from client.go `ApiError.Error`: the formatted identity string
built by `fmt.Sprintf` with format string percent-s colon space percent-s
space open-paren HTTP space percent-d close-paren. -/
def ApiError.errorString (e : ApiError) : String :=
  e.status ++ ": " ++ e.err ++ " (HTTP " ++ toString e.httpStatus ++ ")"

/-- Modelled from the spec: the standard library JSON decoder
(`encoding/json.Unmarshal`) is not part of this repository, so a response
body is carried together with its decode result: either the body fails to
parse as the envelope (with the decoder's message), or it yields the
envelope's optional `status` and `error` string fields (absent fields decode
to the empty string, as Go leaves the zero value in place). -/
inductive BodyParse where
  | malformed (msg : String)
  | envelope (status : String) (err : String)
deriving DecidableEq, Repr

/-- A response body: the raw bytes (as a string, as `io.ReadAll` +
`string(respBody)` treat them) together with its JSON decode result. -/
structure RespBody where
  raw : String
  parse : BodyParse
deriving DecidableEq, Repr

/-- Errors returned by the client core, by construction site:
a transport error from `HttpClient.Do`, a decoded `ApiError`, or the
wrapped `fmt.Errorf` produced when the envelope fails to decode. -/
inductive GoError where
  | transport (msg : String)
  | api (e : ApiError)
  | decodeFailure (unmarshalMsg : String) (raw : String) (statusCode : Int)
deriving DecidableEq, Repr

/-- The `Error()` string of each error, following client.go: the decode
failure is the `fmt.Errorf` text with the raw response and status code
interpolated. -/
def GoError.errorString : GoError → String
  | .transport m => m
  | .api e => e.errorString
  | .decodeFailure m raw sc =>
      "failed to decode api error: " ++ m ++ " (raw response: " ++ raw ++
        ", status code: " ++ toString sc ++ ")"

/-- Embedded from client.go `Client.toApiError`: on a decode failure return
the wrapped error carrying the raw body and status code; otherwise return
nil (modelled `none`) exactly when the HTTP status is 200 and the envelope
status is "OK", and the populated `ApiError` otherwise. -/
def toApiError (statusCode : Int) (body : RespBody) : Option GoError :=
  match body.parse with
  | .malformed m => some (.decodeFailure m body.raw statusCode)
  | .envelope st er =>
      if statusCode = StatusOK ∧ st = ApiStatusOK then none
      else some (.api ⟨st, er, statusCode⟩)

/-- One attempt's observable outcome at the fake-transport boundary:
either `HttpClient.Do` returns an error, or it returns a response with a
status code and a body. -/
inductive Outcome where
  | transportErr (msg : String)
  | response (statusCode : Int) (body : RespBody)
deriving DecidableEq, Repr

/-- Classification of one attempt as the backoff driver sees it: a nil
error (success), an error wrapped in `backoff.Permanent`, or a plain
(retriable) error. -/
inductive AttemptResult where
  | success
  | permanentFailure (e : GoError)
  | retriableFailure (e : GoError)
deriving DecidableEq, Repr

/-- Embedded from client.go `Client.doOnce` (error-classification part):
a transport error is returned unwrapped (hence retriable to the driver);
a non-200 response is decoded by `toApiError` and wrapped in
`backoff.Permanent` exactly when its status code is not retriable.
When `toApiError` returns nil the Go code returns a nil error (for the
non-retriable branch, `backoff.Permanent(nil)` is nil), which the driver
treats as success; that branch is unreachable for non-200 statuses. -/
def doOnce (o : Outcome) : AttemptResult :=
  match o with
  | .transportErr m => .retriableFailure (.transport m)
  | .response statusCode body =>
      if statusCode = StatusOK then .success
      else
        match toApiError statusCode body with
        | none => .success
        | some e =>
            if isRetriable statusCode then .retriableFailure e
            else .permanentFailure e

/-- Backoff initial interval in seconds, from `Client.do`:
`backoff.WithInitialInterval(2*time.Second)`. -/
def initialInterval : Nat := 2

/-- Backoff multiplier, from `Client.do`: `backoff.WithMultiplier(2.0)`. -/
def multiplier : Nat := 2

/-- Backoff interval cap in seconds, from `Client.do`:
`backoff.WithMaxInterval(64*time.Second)`. -/
def maxInterval : Nat := 64

/-- Modelled from the spec: the exponential-backoff schedule of the
third-party backoff timer (`github.com/cenkalti/backoff/v4`, not under
src/): the wait before retry number k+1 starts at the initial interval,
doubles on each successive retry, and is capped at the maximum interval. -/
def backoffInterval : Nat → Nat
  | 0 => initialInterval
  | k + 1 => min (multiplier * backoffInterval k) maxInterval

/-- The observable trace of one logical call: how many attempts ran, the
waits (in seconds) inserted before each retry in order, and the final
result (`none` is success, `some e` the returned error). -/
structure RunTrace where
  attempts : Nat
  waits : List Nat
  result : Option GoError
deriving DecidableEq, Repr

/-- Modelled from the spec: the retry driver
(`backoff.RetryNotifyWithTimerAndData` with `backoff.WithMaxRetries`, not
under src/): perform an attempt; on success stop; on a permanent failure
stop with that error; on a retriable failure, stop with that (last) error
when the retry budget is exhausted, otherwise wait the backoff interval
and retry with the attempt counter incremented.  `remaining` is the retry
budget still available and `i` the zero-based index of the attempt about
to run. -/
def retryLoop (outcomes : Nat → Outcome) : Nat → Nat → RunTrace
  | 0, i =>
      match doOnce (outcomes i) with
      | .success => ⟨1, [], none⟩
      | .permanentFailure e => ⟨1, [], some e⟩
      | .retriableFailure e => ⟨1, [], some e⟩
  | r + 1, i =>
      match doOnce (outcomes i) with
      | .success => ⟨1, [], none⟩
      | .permanentFailure e => ⟨1, [], some e⟩
      | .retriableFailure _ =>
          let rest := retryLoop outcomes r (i + 1)
          ⟨rest.attempts + 1, backoffInterval i :: rest.waits, rest.result⟩

/-- Embedded from client.go `Client` (the fields the retry and compression
claims depend on; the token, URL, transport and timer fields are opaque
here). `MaxRetries` is a Go `int`. -/
structure Client where
  UseGzipEncoding : Bool
  MaxRetries : Int
  DisableRetry : Bool
deriving DecidableEq, Repr

/-- Embedded from client.go `defaultMaxRetries`. -/
def defaultMaxRetries : Int := 6

/-- Embedded from client.go `Client.maxRetries`: 0 when retries are
disabled; the default when the `MaxRetries` field is 0; the field
otherwise. -/
def Client.maxRetries (c : Client) : Int :=
  if c.DisableRetry then 0
  else if c.MaxRetries = 0 then defaultMaxRetries
  else c.MaxRetries

/-- The retry budget handed to the driver in `Client.do`:
`uint64(c.maxRetries())`, i.e. the value reduced modulo 2^64. -/
def Client.retryBudget (c : Client) : Nat :=
  (c.maxRetries % (2 : Int) ^ 64).toNat

/-- Embedded from client.go `Client.do` (retry orchestration): run the
modelled driver with the client's budget starting at attempt 0.  The
outcome stream stands for what the underlying `HttpClient.Do` produces on
each successive attempt. -/
def Client.doCall (c : Client) (outcomes : Nat → Outcome) : RunTrace :=
  retryLoop outcomes c.retryBudget 0

/-- Embedded from filter.go `Operator`: a string newtype whose values are
the canonical operator tokens. -/
structure Operator where
  token : String
deriving DecidableEq, Repr

/-- Operator constant from filter.go. -/
def OpEq : Operator := ⟨"Eq"⟩

/-- Operator constant from filter.go. -/
def OpNotEq : Operator := ⟨"NotEq"⟩

/-- Operator constant from filter.go. -/
def OpIn : Operator := ⟨"In"⟩

/-- Operator constant from filter.go. -/
def OpNotIn : Operator := ⟨"NotIn"⟩

/-- Operator constant from filter.go. -/
def OpLt : Operator := ⟨"Lt"⟩

/-- Operator constant from filter.go. -/
def OpLte : Operator := ⟨"Lte"⟩

/-- Operator constant from filter.go. -/
def OpGt : Operator := ⟨"Gt"⟩

/-- Operator constant from filter.go. -/
def OpGte : Operator := ⟨"Gte"⟩

/-- Operator constant from filter.go. -/
def OpGlob : Operator := ⟨"Glob"⟩

/-- Operator constant from filter.go. -/
def OpNotGlob : Operator := ⟨"NotGlob"⟩

/-- Operator constant from filter.go. -/
def OpIGlob : Operator := ⟨"IGlob"⟩

/-- Operator constant from filter.go. -/
def OpNotIGlob : Operator := ⟨"NotIGlob"⟩

/-- Generic JSON values, the target of `tpuf_SerializeFilter` (Go
`interface \x7b\x7d` under `encoding/json` rules). -/
inductive Json where
  | null
  | bool (b : Bool)
  | num (n : Int)
  | str (s : String)
  | arr (xs : List Json)
  | obj (fields : List (String × Json))

/-- Embedded from filter.go: the filter expression tree.  A compound
filter's child slice may hold nil entries, modelled as `none`. -/
inductive Filter where
  | base (attr : String) (op : Operator) (value : Json)
  | and (filters : List (Option Filter))
  | or (filters : List (Option Filter))

mutual

/-- Embedded from filter.go `tpuf_SerializeFilter` on each variant: a leaf
becomes the 3-element array of attribute, operator token and value; a
compound filter becomes the 2-element array of its tag and its serialized
children. -/
def Filter.tpuf_SerializeFilter : Filter → Json
  | .base attr op value => .arr [.str attr, .str op.token, value]
  | .and filters => .arr [.str "And", .arr (serializeSubFilters filters)]
  | .or filters => .arr [.str "Or", .arr (serializeSubFilters filters)]

/-- Embedded from filter.go: the loop over `af.Filters` that skips nil
children and serializes the rest in order. -/
def serializeSubFilters : List (Option Filter) → List Json
  | [] => []
  | none :: rest => serializeSubFilters rest
  | some f :: rest => Filter.tpuf_SerializeFilter f :: serializeSubFilters rest

end

/-- Embedded from filter.go `MarshalJSON` (shared by every variant): a nil
receiver marshals to the JSON literal null, otherwise to the value produced
by `tpuf_SerializeFilter`. -/
def marshalFilter : Option Filter → Json
  | none => .null
  | some f => f.tpuf_SerializeFilter

/-- Modelled from the spec: `compress/gzip` is not part of this repository.
Compression is modelled as an invertible framing that prepends the real
gzip magic bytes 31, 139 to the payload; what matters for the claims is
that decompression of a compressed body recovers the identical bytes and
that decoding fails on a non-gzip stream, both faithful to the spec's
description of the codec. -/
def gzipCompress (b : List Nat) : List Nat := 31 :: 139 :: b

/-- Modelled from the spec: the inverse of `gzipCompress`; fails (as
`gzip.NewReader` does) when the magic bytes are absent. -/
def gzipDecompress : List Nat → Option (List Nat)
  | 31 :: 139 :: rest => some rest
  | _ => none

/-- The parts of an outgoing `http.Request` that `maybeEncodeGzip`
touches: the body and the two encoding headers. -/
structure Request where
  body : Option (List Nat)
  contentEncoding : Option String
  acceptEncoding : Option String
deriving DecidableEq, Repr

/-- The parts of an incoming `http.Response` that `maybeDecodeGzip`
touches. -/
structure Response where
  contentEncoding : Option String
  body : List Nat
deriving DecidableEq, Repr

/-- Embedded from client.go `Client.maybeEncodeGzip`: always set
`Accept-Encoding: gzip`; when a body is present, replace it with its
gzip-compressed form and set `Content-Encoding: gzip`. -/
def maybeEncodeGzip (req : Request) : Request :=
  let req := { req with acceptEncoding := some "gzip" }
  match req.body with
  | none => req
  | some b =>
      { req with body := some (gzipCompress b), contentEncoding := some "gzip" }

/-- Embedded from client.go `Client.maybeDecodeGzip`: when the response
does not declare `Content-Encoding: gzip` it is passed through unchanged;
otherwise its body is replaced by the decompressed bytes, failing when the
stream is not valid gzip. -/
def maybeDecodeGzip (resp : Response) : Option Response :=
  if resp.contentEncoding ≠ some "gzip" then some resp
  else
    match gzipDecompress resp.body with
    | none => none
    | some b => some { resp with body := b }

/-- Concrete fixture: a retriable failing outcome, HTTP 500 with an empty
body, which fails to decode ("unexpected end of JSON input" is Go's
message for an empty input). -/
def fail500 : Outcome :=
  .response 500 ⟨"", .malformed "unexpected end of JSON input"⟩

/-- Concrete fixture: a successful outcome, HTTP 200 with an OK envelope. -/
def ok200 : Outcome := .response 200 ⟨"", .envelope "OK" ""⟩

/-- Concrete fixture: an outcome stream whose first n attempts fail with
HTTP 500 and whose later attempts succeed. -/
def failThenOk (n : Nat) : Nat → Outcome :=
  fun i => if i < n then fail500 else ok200

/-- Concrete fixture: a permanent failing outcome, HTTP 400 with a decoded
error envelope. -/
def out400 : Outcome :=
  .response 400 ⟨"", .envelope "error" "invalid argument"⟩

/-- Concrete fixture: the bytes of the body from the spec's gzip example
(the UTF-8 encoding of a one-key JSON object mapping "key" to "value"). -/
def gzReqBody : List Nat :=
  [123, 34, 107, 101, 121, 34, 58, 34, 118, 97, 108, 117, 101, 34, 125]

theorem serializeSubFilters_eq (fs : List (Option Filter)) :
    serializeSubFilters fs = (fs.filterMap id).map Filter.tpuf_SerializeFilter := by
  induction fs with
  | nil => rfl
  | cons hd tl ih =>
      cases hd with
      | none => simpa [serializeSubFilters, List.filterMap_cons] using ih
      | some f => simp [serializeSubFilters, List.filterMap_cons, ih]

/-- C1: the classifier marks a status retriable iff it is at least 500 or
one of 408, 429, 202, and permanent (not retriable) otherwise. -/
theorem status_classification (s : Int) :
    (isRetriable s = true ↔ 500 ≤ s ∨ s ∈ ([408, 429, 202] : List Int))
    ∧ (isRetriable s = false ↔ ¬(500 ≤ s ∨ s ∈ ([408, 429, 202] : List Int))) := by
  have h : isRetriable s = true ↔ 500 ≤ s ∨ s ∈ ([408, 429, 202] : List Int) := by
    simp only [isRetriable, StatusRequestTimeout, StatusTooManyRequests, StatusAccepted,
      Bool.or_eq_true, decide_eq_true_eq, ge_iff_le, List.mem_cons, List.not_mem_nil, or_false]
    tauto
  refine ⟨h, ?_⟩
  rw [← h]
  cases isRetriable s <;> simp

/-- C7: serialization of a filter tree: nil marshals to null, a leaf to the
3-element array of attribute, operator token and value, and a compound
filter to the 2-element array of its tag and the encodings of its non-nil
children in original order with nil children omitted, at every depth. -/
theorem filter_serialization_shape :
    marshalFilter none = Json.null
    ∧ (∀ (attr : String) (op : Operator) (value : Json),
        marshalFilter (some (.base attr op value)) =
          .arr [.str attr, .str op.token, value])
    ∧ (∀ fs : List (Option Filter),
        marshalFilter (some (.and fs)) =
          .arr [.str "And", .arr ((fs.filterMap id).map Filter.tpuf_SerializeFilter)])
    ∧ (∀ fs : List (Option Filter),
        marshalFilter (some (.or fs)) =
          .arr [.str "Or", .arr ((fs.filterMap id).map Filter.tpuf_SerializeFilter)]) := by
  refine ⟨rfl, fun attr op value => rfl, fun fs => ?_, fun fs => ?_⟩ <;>
    simp [marshalFilter, Filter.tpuf_SerializeFilter, serializeSubFilters_eq]

/-- C10: an And (resp. Or) filter whose child list is empty or holds only
nil children serializes to the 2-element array of its tag and an empty
children array. -/
theorem compound_all_nil_children (fs : List (Option Filter))
    (h : ∀ x ∈ fs, x = none) :
    Filter.tpuf_SerializeFilter (.and fs) = .arr [.str "And", .arr []]
    ∧ Filter.tpuf_SerializeFilter (.or fs) = .arr [.str "Or", .arr []] := by
  have hnil : fs.filterMap id = [] := by
    rw [List.filterMap_eq_nil_iff]
    intro a ha
    rw [h a ha]
    rfl
  constructor <;>
    simp [Filter.tpuf_SerializeFilter, serializeSubFilters_eq, hnil]

theorem compound_all_nil_children_witness :
    Filter.tpuf_SerializeFilter (.and [none, none]) = .arr [.str "And", .arr []]
    ∧ Filter.tpuf_SerializeFilter (.or [none, none]) = .arr [.str "Or", .arr []] :=
  compound_all_nil_children [none, none]
    (by intro x hx; rcases List.mem_cons.mp hx with h | h
        · exact h
        · rcases List.mem_cons.mp h with h2 | h2
          · exact h2
          · cases h2)

/-- C6 (amended): the decoder returns success exactly when the HTTP status
is 200 and the envelope status is "OK"; every other combination of status
code and envelope status yields an ApiError carrying the envelope fields
and the real HTTP status, formatted as status, colon, message, and the
HTTP code in parentheses (the envelope's error message being present does
not by itself force failure when the status is 200 and "OK"). -/
theorem envelope_decoding (sc : Int) (raw st er : String) :
    (toApiError sc ⟨raw, .envelope st er⟩ = none ↔ sc = 200 ∧ st = ApiStatusOK)
    ∧ (¬(sc = 200 ∧ st = ApiStatusOK) →
        toApiError sc ⟨raw, .envelope st er⟩ = some (.api ⟨st, er, sc⟩)
        ∧ GoError.errorString (.api ⟨st, er, sc⟩) =
            st ++ ": " ++ er ++ " (HTTP " ++ toString sc ++ ")")
    ∧ ApiError.errorString ⟨"error", "bad filter", 400⟩ = "error: bad filter (HTTP 400)" := by
  have hkey : toApiError sc ⟨raw, .envelope st er⟩ =
      if sc = 200 ∧ st = ApiStatusOK then none
      else some (.api ⟨st, er, sc⟩) := by
    simp only [toApiError, StatusOK]
  refine ⟨?_, fun hne => ⟨?_, rfl⟩, by rfl⟩
  · rw [hkey]
    by_cases hc : sc = 200 ∧ st = ApiStatusOK
    · simp [hc]
    · simp [hc]
  · rw [hkey, if_neg hne]

/-- C6 counterexample: with HTTP 200 and envelope status "OK", a present
error message still decodes to success (nil error), not to an ApiError as
the claim's "or a present error message" disjunct requires. -/
theorem envelope_decoding_counterexample :
    toApiError 200 ⟨"irrelevant", .envelope "OK" "some error message"⟩ = none
    ∧ "some error message" ≠ "" := by
  constructor
  · rfl
  · decide

theorem envelope_decoding_witness :
    toApiError 400 ⟨"raw", .envelope "error" "bad filter"⟩ =
      some (.api ⟨"error", "bad filter", 400⟩) :=
  ((envelope_decoding 400 "raw" "error" "bad filter").2.1 (by decide)).1

theorem retryLoop_attempts_pos (outs : Nat → Outcome) (r i : Nat) :
    1 ≤ (retryLoop outs r i).attempts := by
  cases r <;> cases h : doOnce (outs i) <;> simp [retryLoop, h]

theorem backoff_waits_cons (i r : Nat) :
    backoffInterval i :: (List.range r).map (fun k => backoffInterval (i + 1 + k)) =
      (List.range (r + 1)).map (fun k => backoffInterval (i + k)) := by
  rw [List.range_succ_eq_map, List.map_cons, List.map_map]
  have hf : (fun k => backoffInterval (i + k)) ∘ Nat.succ =
      fun k => backoffInterval (i + 1 + k) := by
    funext k
    simp only [Function.comp]
    congr 1
    omega
  rw [hf]
  simp

theorem retryLoop_waits (outs : Nat → Outcome) (r i : Nat) :
    (retryLoop outs r i).waits =
      (List.range ((retryLoop outs r i).attempts - 1)).map
        (fun k => backoffInterval (i + k)) := by
  induction r generalizing i with
  | zero => cases h : doOnce (outs i) <;> simp [retryLoop, h]
  | succ r ih =>
      cases h : doOnce (outs i) with
      | success => simp [retryLoop, h]
      | permanentFailure e => simp [retryLoop, h]
      | retriableFailure e =>
          have hpos := retryLoop_attempts_pos outs r (i + 1)
          obtain ⟨m, hm⟩ : ∃ m, (retryLoop outs r (i + 1)).attempts = m + 1 :=
            ⟨(retryLoop outs r (i + 1)).attempts - 1, by omega⟩
          have hw := ih (i + 1)
          rw [hm] at hw
          simp only [retryLoop, h]
          rw [hw, hm]
          simpa using backoff_waits_cons i m

theorem retryLoop_run (outs : Nat → Outcome) (r i : Nat)
    (hfail : ∀ k, k < r → ∃ e, doOnce (outs (i + k)) = .retriableFailure e) :
    (doOnce (outs (i + r)) = .success →
        retryLoop outs r i =
          ⟨r + 1, (List.range r).map (fun k => backoffInterval (i + k)), none⟩)
    ∧ (∀ e, doOnce (outs (i + r)) = .retriableFailure e →
        retryLoop outs r i =
          ⟨r + 1, (List.range r).map (fun k => backoffInterval (i + k)), some e⟩) := by
  induction r generalizing i with
  | zero =>
      constructor
      · intro hs
        have hs0 : doOnce (outs i) = .success := by simpa using hs
        simp [retryLoop, hs0]
      · intro e he
        have he0 : doOnce (outs i) = .retriableFailure e := by simpa using he
        simp [retryLoop, he0]
  | succ r ih =>
      obtain ⟨e0, he0⟩ := hfail 0 (Nat.succ_pos r)
      have he0i : doOnce (outs i) = .retriableFailure e0 := by simpa using he0
      have hfail1 : ∀ k, k < r → ∃ e, doOnce (outs (i + 1 + k)) = .retriableFailure e := by
        intro k hk
        obtain ⟨e, he⟩ := hfail (k + 1) (by omega)
        exact ⟨e, by rw [show i + 1 + k = i + (k + 1) by omega]; exact he⟩
      have hshift : i + 1 + r = i + (r + 1) := by omega
      constructor
      · intro hs
        have hs1 : doOnce (outs (i + 1 + r)) = .success := by rw [hshift]; exact hs
        have hrest := (ih (i + 1) hfail1).1 hs1
        simp only [retryLoop, he0i, hrest]
        rw [backoff_waits_cons]
      · intro e he
        have he1 : doOnce (outs (i + 1 + r)) = .retriableFailure e := by
          rw [hshift]; exact he
        have hrest := (ih (i + 1) hfail1).2 e he1
        simp only [retryLoop, he0i, hrest]
        rw [backoff_waits_cons]

theorem doCall_nonretriable (c : Client) (outs : Nat → Outcome) (s : Int) (b : RespBody)
    (h0 : outs 0 = .response s b) (hs : s ≠ 200) (hr : isRetriable s = false) :
    c.doCall outs = ⟨1, [], toApiError s b⟩ := by
  have hdo : doOnce (outs 0) =
      match toApiError s b with
      | none => .success
      | some e => .permanentFailure e := by
    rw [h0]
    simp only [doOnce]
    rw [if_neg (by simpa [StatusOK] using hs)]
    cases htap : toApiError s b <;> simp [htap, hr]
  unfold Client.doCall
  cases hb : c.retryBudget <;> cases htap : toApiError s b <;>
    rw [htap] at hdo <;> simp [retryLoop, hdo, htap]

/-- C5: a first attempt that fails with a non-retriable (permanent)
classification, e.g. HTTP 400, ends the call with exactly one attempt, no
backoff wait, and the decoded error, for every max-retry configuration. -/
theorem permanent_short_circuit (c : Client) (outs : Nat → Outcome) (s : Int) (b : RespBody)
    (h0 : outs 0 = .response s b) (hs : s ≠ 200) (hr : isRetriable s = false) :
    (c.doCall outs).attempts = 1 ∧ c.doCall outs = ⟨1, [], toApiError s b⟩ :=
  ⟨by rw [doCall_nonretriable c outs s b h0 hs hr], doCall_nonretriable c outs s b h0 hs hr⟩

theorem permanent_short_circuit_witness :
    ((Client.mk false 3 false).doCall (fun _ => out400)).attempts = 1
    ∧ (Client.mk false 3 false).doCall (fun _ => out400) =
        ⟨1, [], some (.api ⟨"error", "invalid argument", 400⟩)⟩ := by
  have h := permanent_short_circuit (Client.mk false 3 false) (fun _ => out400) 400
    ⟨"", .envelope "error" "invalid argument"⟩ rfl (by decide) (by decide)
  exact ⟨h.1, h.2.trans (by rfl)⟩

/-- C3 (amended): an envelope-decode failure is surfaced as an error whose
message contains the raw response body and the HTTP status code; when the
failing response's status is non-retriable the decode error ends the call
after that single attempt; when the status is retriable the decode error
is retried like any other retriable failure. -/
theorem decode_failure_surfacing :
    (∀ (m raw : String) (sc : Int), ∃ pre post,
        GoError.errorString (.decodeFailure m raw sc) = pre ++ raw ++ post)
    ∧ (∀ (m raw : String) (sc : Int), ∃ pre post,
        GoError.errorString (.decodeFailure m raw sc) = pre ++ toString sc ++ post)
    ∧ (∀ (c : Client) (outs : Nat → Outcome) (s : Int) (raw m : String),
        outs 0 = .response s ⟨raw, .malformed m⟩ → s ≠ 200 → isRetriable s = false →
        c.doCall outs = ⟨1, [], some (.decodeFailure m raw s)⟩) := by
  refine ⟨?_, ?_, ?_⟩
  · intro m raw sc
    refine ⟨"failed to decode api error: " ++ m ++ " (raw response: ",
      ", status code: " ++ toString sc ++ ")", ?_⟩
    simp [GoError.errorString, String.append_assoc]
  · intro m raw sc
    refine ⟨"failed to decode api error: " ++ m ++ " (raw response: " ++ raw ++
      ", status code: ", ")", ?_⟩
    simp [GoError.errorString, String.append_assoc]
  · intro c outs s raw m h0 hs hr
    exact (doCall_nonretriable c outs s ⟨raw, .malformed m⟩ h0 hs hr).trans (by rfl)

theorem decode_failure_surfacing_witness :
    (Client.mk false 3 false).doCall
        (fun _ => .response 400 ⟨"not json", .malformed "invalid character"⟩) =
      ⟨1, [], some (.decodeFailure "invalid character" "not json" 400)⟩ :=
  decode_failure_surfacing.2.2 (Client.mk false 3 false)
    (fun _ => .response 400 ⟨"not json", .malformed "invalid character"⟩)
    400 "not json" "invalid character" rfl (by decide) (by decide)

/-- C3 counterexample: a decode error arising from a retriable status is
retried: every attempt returns HTTP 500 with an empty, undecodable body,
the first attempt's result is the decode failure classified retriable, and
with a retry budget of 2 the call performs 3 attempts, so further attempts
do occur after the envelope-decode error. -/
theorem decode_failure_retried_counterexample :
    doOnce fail500 =
      .retriableFailure (.decodeFailure "unexpected end of JSON input" "" 500)
    ∧ ((Client.mk false 2 false).doCall (fun _ => fail500)).attempts = 3
    ∧ ((Client.mk false 2 false).doCall (fun _ => fail500)).attempts ≠ 1 := by
  refine ⟨rfl, by decide, by decide⟩

/-- C2 (amended): with retries disabled exactly one attempt is performed
and any failure is returned immediately with no backoff wait; a MaxRetries
field of 0 with retries not disabled does not disable retrying but selects
the default budget of 6 retries. -/
theorem retry_disabled_single_attempt :
    (∀ (c : Client) (outs : Nat → Outcome) (e : GoError), c.DisableRetry = true →
        (doOnce (outs 0) = .retriableFailure e ∨ doOnce (outs 0) = .permanentFailure e) →
        c.doCall outs = ⟨1, [], some e⟩)
    ∧ (∀ c : Client, c.DisableRetry = false → c.MaxRetries = 0 → c.retryBudget = 6) := by
  constructor
  · intro c outs e hd hf
    have hb : c.retryBudget = 0 := by
      simp [Client.retryBudget, Client.maxRetries, hd]
    unfold Client.doCall
    rw [hb]
    rcases hf with h | h <;> simp [retryLoop, h]
  · intro c hd hm
    simp only [Client.retryBudget, Client.maxRetries, hd, hm, if_false, if_true,
      Bool.false_eq_true, defaultMaxRetries, ite_true, ite_false]
    decide

theorem retry_disabled_single_attempt_witness :
    (Client.mk false 3 true).doCall (fun _ => fail500) =
      ⟨1, [], some (.decodeFailure "unexpected end of JSON input" "" 500)⟩ :=
  retry_disabled_single_attempt.1 (Client.mk false 3 true) (fun _ => fail500)
    (.decodeFailure "unexpected end of JSON input" "" 500) rfl (Or.inl rfl)

/-- C2 counterexample: a client whose MaxRetries field is 0 with retries
not disabled does not perform exactly one attempt: on a stream of
retriable failures it performs 7 attempts (the default budget of 6
retries), refuting the claim for the max-retry = 0 configuration. -/
theorem retry_zero_maxretries_counterexample :
    (Client.mk false 0 false).MaxRetries = 0
    ∧ (Client.mk false 0 false).DisableRetry = false
    ∧ ((Client.mk false 0 false).doCall (fun _ => fail500)).attempts = 7
    ∧ ((Client.mk false 0 false).doCall (fun _ => fail500)).attempts ≠ 1 := by
  refine ⟨rfl, rfl, by decide, by decide⟩

/-- C4: with an effective max-retry budget of N, N retriable failures
followed by a success give exactly N+1 attempts and a successful result,
and N+1 consecutive retriable failures give exactly N+1 attempts with the
last observed error returned verbatim. -/
theorem retry_counting_and_exhaustion (N : Nat) (c : Client) (outs : Nat → Outcome)
    (hb : c.retryBudget = N)
    (hfail : ∀ k, k < N → ∃ e, doOnce (outs k) = .retriableFailure e) :
    (doOnce (outs N) = .success →
        (c.doCall outs).attempts = N + 1 ∧ (c.doCall outs).result = none)
    ∧ (∀ e, doOnce (outs N) = .retriableFailure e →
        (c.doCall outs).attempts = N + 1 ∧ (c.doCall outs).result = some e) := by
  have h := retryLoop_run outs N 0 (by simpa using hfail)
  constructor
  · intro hs
    have := h.1 (by simpa using hs)
    unfold Client.doCall
    rw [hb, this]
    exact ⟨rfl, rfl⟩
  · intro e he
    have := h.2 e (by simpa using he)
    unfold Client.doCall
    rw [hb, this]
    exact ⟨rfl, rfl⟩

theorem retry_counting_and_exhaustion_witness :
    ((Client.mk false 2 false).doCall (failThenOk 2)).attempts = 3
    ∧ ((Client.mk false 2 false).doCall (failThenOk 2)).result = none := by
  refine (retry_counting_and_exhaustion 2 (Client.mk false 2 false) (failThenOk 2)
    (by decide) ?_).1 (by decide)
  intro k hk
  refine ⟨.decodeFailure "unexpected end of JSON input" "" 500, ?_⟩
  interval_cases k <;> rfl

/-- C9: within one call the waits inserted before successive retries
follow the exponential-backoff schedule with initial interval 2, doubling
each retry and capped at 64: the k-th wait is min(2 * 2^k, 64), i.e. the
waits are exactly 2, 4, 8, 16, 32, 64, 64, and 64 from then on. -/
theorem backoff_schedule (c : Client) (outs : Nat → Outcome) :
    (c.doCall outs).waits =
      (List.range ((c.doCall outs).attempts - 1)).map backoffInterval
    ∧ (∀ k, backoffInterval k = min (initialInterval * 2 ^ k) maxInterval)
    ∧ (List.range 7).map backoffInterval = [2, 4, 8, 16, 32, 64, 64] := by
  refine ⟨?_, ?_, by decide⟩
  · have h := retryLoop_waits outs c.retryBudget 0
    unfold Client.doCall
    simpa using h
  · intro k
    induction k with
    | zero => decide
    | succ k ih =>
        simp only [backoffInterval, ih, initialInterval, multiplier, maxInterval, pow_succ]
        omega

/-- C8: with compression enabled, undoing the executor's gzip encoding of
a request body recovers exactly the original bytes (and the encoding
headers are set), and for a response declaring gzip content encoding the
body handed onward equals the gunzipped response body. -/
theorem gzip_roundtrip :
    (∀ (req : Request) (b : List Nat), req.body = some b →
        Option.bind (maybeEncodeGzip req).body gzipDecompress = some b
        ∧ (maybeEncodeGzip req).contentEncoding = some "gzip"
        ∧ (maybeEncodeGzip req).acceptEncoding = some "gzip")
    ∧ (∀ resp : Response, resp.contentEncoding = some "gzip" →
        (maybeDecodeGzip resp).map Response.body = gzipDecompress resp.body) := by
  constructor
  · intro req b hb
    simp [maybeEncodeGzip, hb, gzipCompress, gzipDecompress]
  · intro resp henc
    simp only [maybeDecodeGzip, henc, ne_eq, not_true_eq_false, if_false, ite_false]
    cases hgz : gzipDecompress resp.body <;> simp

theorem gzip_roundtrip_witness :
    Option.bind (maybeEncodeGzip ⟨some gzReqBody, none, none⟩).body gzipDecompress =
      some gzReqBody
    ∧ (maybeDecodeGzip ⟨some "gzip", gzipCompress gzReqBody⟩).map Response.body =
        some gzReqBody := by
  constructor
  · exact (gzip_roundtrip.1 ⟨some gzReqBody, none, none⟩ gzReqBody rfl).1
  · exact (gzip_roundtrip.2 ⟨some "gzip", gzipCompress gzReqBody⟩ rfl).trans (by rfl)

end Tpuf
